import Mathlib

/-!
Verification of the `kv` crate's typed key/value layer against its
natural-language specification.

The development shallowly embeds the Rust sources:

* `src/key.rs` (sled era): the `Key` trait impls, the 128-bit `Integer`
  key type and its `From` conversions;
* `src/types.rs` (lmdb era): the 64-bit `Integer` key type;
* `src/bucket.rs`: `Bucket::get/set/remove/compare_and_swap/transaction/
  transaction2`, with the sled `Sled.Tree` modelled as a finite partial map
  from raw keys to raw values;
* `src/transaction.rs`: the `Transaction` handle operations;
* `src/error.rs`: the sled-era `Error` enum;
* `src/txn.rs`, `src/store.rs`, `src/config.rs` (lmdb era): `Txn`
  read-only gating, `Store::write_txn`, and `Config::env`.

Machine integers are modelled as `Nat`/`Int` with explicit `% 2^w`
where Rust wraparound or casts matter.  A Rust panic is modelled as
`Option.none` in the result type of the function that can panic.
-/

/-- `Raw` is the crate's byte-string type (an alias of `sled::IVec`):
an immutable byte sequence, modelled as a list of byte values. -/
abbrev Raw : Type := List Nat

/-- Byte-lexicographic comparison of two byte strings, as performed by
`memcmp`-style comparison on `&[u8]`: the first differing byte decides;
a strict prefix is smaller. -/
def lexLt : List Nat → List Nat → Bool
  | [], [] => false
  | [], _ :: _ => true
  | _ :: _, [] => false
  | a :: as, b :: bs =>
    if a < b then true
    else if b < a then false
    else lexLt as bs

/-- Big-endian base-256 digits of `i`, `w` bytes wide (most significant
byte first).  For `i < 256 ^ w` this is exactly the byte image of the
`w*8`-bit big-endian representation, e.g. `u128::to_be` viewed as
`[u8; 16]`. -/
def beBytes : Nat → Nat → List Nat
  | 0, _ => []
  | w + 1, i => i / 256 ^ w :: beBytes w (i % 256 ^ w)

/-- Little-endian base-256 digits of `i`, `w` bytes wide (least
significant byte first): the byte image of `u64::to_le` on a
little-endian target viewed as `[u8; 8]`. -/
def leBytes : Nat → Nat → List Nat
  | 0, _ => []
  | w + 1, i => i % 256 :: leBytes w (i / 256)

/-- The sled-era `Integer` key type from `src/key.rs`:
`pub struct Integer([u8; 16])`. -/
abbrev Integer : Type := { l : List Nat // l.length = 16 }

/-- The raw bytes stored inside an `Integer` (its `AsRef<[u8]>` view). -/
def Integer.bytes (i : Integer) : List Nat := i.val

/-- `impl From<u128> for Integer` (src/key.rs): stores
`i.to_be()` transmuted to `[u8; 16]`, i.e. the 16-byte big-endian
representation.  The `% 2 ^ 128` records that the input is a `u128`. -/
def Integer.from_u128 (i : Nat) : Integer :=
  ⟨beBytes 16 (i % 2 ^ 128), by simp [beBytes]⟩

/-- `impl From<u64> for Integer` (src/key.rs): `let i = i as u128;
i.into()`.  The `u64 → u128` cast is value-preserving zero extension. -/
def Integer.from_u64 (i : Nat) : Integer := Integer.from_u128 (i % 2 ^ 64)

/-- `impl From<u32> for Integer` (src/key.rs): `let i = i as u128;
i.into()`.  The `u32 → u128` cast is value-preserving zero extension. -/
def Integer.from_u32 (i : Nat) : Integer := Integer.from_u128 (i % 2 ^ 32)

/-- `impl From<usize> for Integer` (src/key.rs) on a 64-bit target:
`let i = i as u128; i.into()`; zero extension. -/
def Integer.from_usize (i : Nat) : Integer := Integer.from_u128 (i % 2 ^ 64)

/-- `impl From<i32> for Integer` (src/key.rs): `let i = i as u128;
i.into()`.  Rust's `i32 as u128` cast sign-extends to 128 bits and
reinterprets, i.e. it computes `i mod 2^128` in two's complement. -/
def Integer.from_i32 (i : Int) : Integer :=
  Integer.from_u128 ((i % (2 ^ 128 : Int)).toNat)

/-- The lmdb-era `Integer` key type from `src/types.rs`:
`pub struct Integer([u8; 8])`. -/
abbrev IntegerTypesRs : Type := List Nat

/-- `impl From<u64> for Integer` (src/types.rs), `cfg(target_endian =
"little")` branch, which is the one compiled on the common x86-64 and
aarch64 targets: `Integer(mem::transmute(i.to_le()))` stores the
*little-endian* byte image of `i`. -/
def IntegerTypesRs.from_u64 (i : Nat) : IntegerTypesRs := leBytes 8 (i % 2 ^ 64)

/-- A continuation byte of a UTF-8 sequence: `0x80 ..= 0xBF`. -/
def isUtf8Cont (b : Nat) : Bool := 0x80 ≤ b && b < 0xC0

/-- UTF-8 validity of a byte string, following the validation performed
by `std::str::from_utf8` (`core::str::run_utf8_validation`), which the
`Key for &str` / `Key for String` impls in `src/key.rs` call: ASCII,
2-byte leads `0xC2..=0xDF`, 3-byte leads `0xE0..=0xEF` with the
overlong/surrogate second-byte restrictions, 4-byte leads `0xF0..=0xF4`
with the overlong/out-of-range second-byte restrictions. -/
def validUtf8 : List Nat → Bool
  | [] => true
  | b :: rest =>
    if b < 0x80 then validUtf8 rest
    else if b < 0xC2 then false
    else if b < 0xE0 then
      match rest with
      | b1 :: rest1 => isUtf8Cont b1 && validUtf8 rest1
      | [] => false
    else if b < 0xF0 then
      match rest with
      | b1 :: b2 :: rest2 =>
        (if b = 0xE0 then 0xA0 ≤ b1 && b1 < 0xC0
         else if b = 0xED then 0x80 ≤ b1 && b1 < 0xA0
         else isUtf8Cont b1) && isUtf8Cont b2 && validUtf8 rest2
      | _ => false
    else if b < 0xF5 then
      match rest with
      | b1 :: b2 :: b3 :: rest3 =>
        (if b = 0xF0 then 0x90 ≤ b1 && b1 < 0xC0
         else if b = 0xF4 then 0x80 ≤ b1 && b1 < 0x90
         else isUtf8Cont b1) && isUtf8Cont b2 && isUtf8Cont b3 && validUtf8 rest3
      | _ => false
    else false

/-- A Rust `String` (equally a `&str`): a byte buffer that is valid
UTF-8.  `str::from_utf8` re-interprets the same bytes, so the model
carries the bytes plus the validity invariant. -/
abbrev RustString : Type := { l : List Nat // validUtf8 l = true }

/-- An opaque storage-engine failure (`sled::Error`). -/
inductive SledError where
  | error (code : Nat)
deriving DecidableEq

/-- The sled-era `Error` enum of `src/error.rs` (feature-gated codec
variants omitted; payloads of foreign error types reduced to opaque
data).  The `compareAndSwap` variant accompanies
`sled_cas_error_into_error` below, which is modelled from the spec. -/
inductive Error where
  | sled (e : SledError)
  | io (code : Nat)
  | invalidConfiguration
  | poison
  | utf8
  | fromUtf8
  | systemTime
  | message (s : String)
  | compareAndSwap (current proposed : Option Raw)
deriving DecidableEq

/-- Whether an `Error` reports a storage/engine failure (a sled or IO
error), as opposed to a caller-visible logical condition. -/
def Error.isStorageFailure : Error → Bool
  | .sled _ => true
  | .io _ => true
  | _ => false

/-- Whether an `Error` reports a compare-and-swap conflict. -/
def Error.isCasConflict : Error → Bool
  | .compareAndSwap _ _ => true
  | _ => false

/-- A sled `Sled.Tree` (one named ordered map of the engine), modelled
extensionally as a partial map from raw keys to raw values.  The spec
treats the engine as an external collaborator providing exactly the
point get/set/remove and atomic-transaction primitives modelled here. -/
abbrev Sled.Tree : Type := Raw → Option Raw

/-- The empty tree. -/
def Sled.Tree.empty : Sled.Tree := fun _ => none

/-- `sled::Tree::insert`: returns the previous value and the updated
map. -/
def Sled.Tree.insert (t : Sled.Tree) (k v : Raw) : Option Raw × Sled.Tree :=
  (t k, fun q => if q = k then some v else t q)

/-- `sled::Tree::remove`: returns the previous value and the updated
map. -/
def Sled.Tree.removeKey (t : Sled.Tree) (k : Raw) : Option Raw × Sled.Tree :=
  (t k, fun q => if q = k then none else t q)

/-- `sled::CompareAndSwapError { current, proposed }`. -/
structure CompareAndSwapError where
  current : Option Raw
  proposed : Option Raw
deriving DecidableEq

/-- `sled::Tree::compare_and_swap`: succeeds and installs `new` exactly
when the current value equals `old`; otherwise reports the observed
current value and the proposed new value. -/
def Sled.Tree.compare_and_swap (t : Sled.Tree) (k : Raw) (old new : Option Raw) :
    Except CompareAndSwapError Sled.Tree :=
  if t k = old then .ok (fun q => if q = k then new else t q)
  else .error ⟨t k, new⟩

/-- Modelled from the spec: `Bucket::compare_and_swap` ends in `Ok(a?)`,
converting a `sled::CompareAndSwapError` into the crate `Error` through
a `From` impl that is not under `src/` (the `error.rs` snapshot there
predates it).  The spec requires the mismatch to surface "distinguishably
... (a conflict, not a generic I/O error)", so the conversion produces
the dedicated `compareAndSwap` variant carrying the observed and
proposed values. -/
def sled_cas_error_into_error (e : CompareAndSwapError) : Error :=
  .compareAndSwap e.current e.proposed

/-- The `Key` capability of `src/key.rs` as a first-class dictionary:
`to_raw_key` is the only method `Bucket` write/read paths use. -/
structure KeyImpl (K : Type) where
  to_raw_key : K → Except Error Raw

/-- The sled-era `Value` capability (`to_raw_value`/`from_raw_value`,
both fallible) as a first-class dictionary, as used by every call site
in `src/bucket.rs` and `src/transaction.rs`. -/
structure ValueImpl (V : Type) where
  to_raw_value : V → Except Error Raw
  from_raw_value : Raw → Except Error V

/-- `impl Key for Raw`: `to_raw_key` is the default
`Ok(self.as_ref().into())`. -/
def rawKeyImpl : KeyImpl Raw := ⟨fun r => .ok r⟩

/-- `impl Value for Raw`: both directions are the identity. -/
def rawValueImpl : ValueImpl Raw := ⟨fun r => .ok r, fun r => .ok r⟩

/-- `impl Key for Raw` — `from_raw_key(x) = Ok(x.clone())`
(src/key.rs). -/
def Raw.from_raw_key (r : Raw) : Except Error Raw := .ok r

/-- Default `to_raw_key` for `Raw`: `Ok(self.as_ref().into())`. -/
def Raw.to_raw_key (r : Raw) : Except Error Raw := .ok r

/-- `impl Key for Vec<u8>` — `from_raw_key(r) = Ok(r.to_vec())`
(src/key.rs). -/
def VecKey.from_raw_key (r : Raw) : Except Error Raw := .ok r

/-- Default `to_raw_key` for `Vec<u8>`. -/
def VecKey.to_raw_key (r : Raw) : Except Error Raw := .ok r

/-- `impl Key for &[u8]` — `from_raw_key(x) = Ok(x.as_ref())`
(src/key.rs). -/
def SliceKey.from_raw_key (r : Raw) : Except Error Raw := .ok r

/-- Default `to_raw_key` for `&[u8]`. -/
def SliceKey.to_raw_key (r : Raw) : Except Error Raw := .ok r

/-- `impl Key for String` — `from_raw_key(x) =
Ok(str::from_utf8(x.as_ref())?.to_string())` (src/key.rs): validates
the bytes and errs with the UTF-8 error otherwise. -/
def RustString.from_raw_key (r : Raw) : Except Error RustString :=
  if h : validUtf8 r = true then .ok ⟨r, h⟩ else .error .utf8

/-- Default `to_raw_key` for `String`: its UTF-8 bytes. -/
def RustString.to_raw_key (s : RustString) : Except Error Raw := .ok s.val

/-- `impl Key for &str` — `from_raw_key(x) =
Ok(std::str::from_utf8(x.as_ref())?)` (src/key.rs). -/
def StrKey.from_raw_key (r : Raw) : Except Error RustString :=
  if h : validUtf8 r = true then .ok ⟨r, h⟩ else .error .utf8

/-- Default `to_raw_key` for `&str`. -/
def StrKey.to_raw_key (s : RustString) : Except Error Raw := .ok s.val

/-- `impl From<&[u8]> for Integer` (src/key.rs):
`dst.0[..16].clone_from_slice(&buf[..16])`.  The slice `&buf[..16]`
panics with an index-out-of-range when `buf.len() < 16`; the panic is
modelled as `none`.  For longer buffers the first 16 bytes are taken. -/
def Integer.from_slice (buf : List Nat) : Option Integer :=
  if h : 16 ≤ buf.length then
    some ⟨buf.take 16, by simp [List.length_take]; omega⟩
  else none

/-- `impl Key for Integer` — `from_raw_key(x) =
Ok(Integer::from(x.as_ref()))` (src/key.rs); inherits the panic of
`Integer::from(&[u8])` on short input. -/
def Integer.from_raw_key (r : Raw) : Option (Except Error Integer) :=
  (Integer.from_slice r).map .ok

/-- Default `to_raw_key` for `Integer`: its 16 bytes. -/
def Integer.to_raw_key (i : Integer) : Except Error Raw := .ok i.bytes

/-- `Bucket::get` (src/bucket.rs): encode the key, look it up, decode
the stored bytes; an absent key yields `Ok(None)`. -/
def Bucket.get {K V : Type} (ki : KeyImpl K) (vi : ValueImpl V) (t : Sled.Tree) (k : K) :
    Except Error (Option V) :=
  match ki.to_raw_key k with
  | .error e => .error e
  | .ok rk =>
    match t rk with
    | none => .ok none
    | some x =>
      match vi.from_raw_value x with
      | .error e => .error e
      | .ok v => .ok (some v)

/-- `Bucket::set` (src/bucket.rs): encode value and key, insert, and
decode the previous value if any.  The updated tree is returned
alongside, making the state change explicit. -/
def Bucket.set {K V : Type} (ki : KeyImpl K) (vi : ValueImpl V) (t : Sled.Tree) (k : K) (v : V) :
    Except Error (Option V × Sled.Tree) :=
  match vi.to_raw_value v with
  | .error e => .error e
  | .ok rv =>
    match ki.to_raw_key k with
    | .error e => .error e
    | .ok rk =>
      let p := Sled.Tree.insert t rk rv
      match p.1 with
      | none => .ok (none, p.2)
      | some x =>
        match vi.from_raw_value x with
        | .error e => .error e
        | .ok ov => .ok (some ov, p.2)

/-- `Bucket::remove` (src/bucket.rs): encode the key, remove it, and
decode the previous value if any. -/
def Bucket.remove {K V : Type} (ki : KeyImpl K) (vi : ValueImpl V) (t : Sled.Tree) (k : K) :
    Except Error (Option V × Sled.Tree) :=
  match ki.to_raw_key k with
  | .error e => .error e
  | .ok rk =>
    let p := Sled.Tree.removeKey t rk
    match p.1 with
    | none => .ok (none, p.2)
    | some x =>
      match vi.from_raw_value x with
      | .error e => .error e
      | .ok ov => .ok (some ov, p.2)

/-- The `match old / match value` encoding prologue of
`Bucket::compare_and_swap` (src/bucket.rs lines 196-204). -/
def encode_option {V : Type} (vi : ValueImpl V) : Option V → Except Error (Option Raw)
  | none => .ok none
  | some x =>
    match vi.to_raw_value x with
    | .error e => .error e
    | .ok r => .ok (some r)

/-- `Bucket::compare_and_swap` (src/bucket.rs): encode `old`, `value`
and the key, run the engine CAS, and convert a mismatch through
`sled_cas_error_into_error` (the `Ok(a?)` on line 208). -/
def Bucket.compare_and_swap {K V : Type} (ki : KeyImpl K) (vi : ValueImpl V)
    (t : Sled.Tree) (k : K) (old new : Option V) : Except Error (Unit × Sled.Tree) :=
  match encode_option vi old with
  | .error e => .error e
  | .ok oldr =>
    match encode_option vi new with
    | .error e => .error e
    | .ok newr =>
      match ki.to_raw_key k with
      | .error e => .error e
      | .ok rk =>
        match Sled.Tree.compare_and_swap t rk oldr newr with
        | .ok t' => .ok ((), t')
        | .error e => .error (sled_cas_error_into_error e)

/-- `sled::transaction::ConflictableTransactionError<E>`: the error a
transaction closure can return — an application-level `Abort(E)` or a
storage failure.  (The hidden `Conflict` variant only drives sled's
internal retry loop and never reaches `Bucket::transaction`'s match.) -/
inductive ConflictableTransactionError (E : Type) where
  | abort (e : E)
  | storage (e : SledError)

/-- `Transaction::get` (src/transaction.rs): encode errors become
`Abort`, engine reads come from the transactional tree state. -/
def Transaction.get {K V : Type} (ki : KeyImpl K) (vi : ValueImpl V) (t : Sled.Tree) (k : K) :
    Except (ConflictableTransactionError Error) (Option V) :=
  match ki.to_raw_key k with
  | .error e => .error (.abort e)
  | .ok rk =>
    match t rk with
    | none => .ok none
    | some x =>
      match vi.from_raw_value x with
      | .error e => .error (.abort e)
      | .ok v => .ok (some v)

/-- `Transaction::set` (src/transaction.rs): encode errors become
`Abort`; the write lands in the transactional tree state, which is
returned alongside the previous value. -/
def Transaction.set {K V : Type} (ki : KeyImpl K) (vi : ValueImpl V) (t : Sled.Tree) (k : K) (v : V) :
    Except (ConflictableTransactionError Error) (Option V × Sled.Tree) :=
  match vi.to_raw_value v with
  | .error e => .error (.abort e)
  | .ok rv =>
    match ki.to_raw_key k with
    | .error e => .error (.abort e)
    | .ok rk =>
      let p := Sled.Tree.insert t rk rv
      match p.1 with
      | none => .ok (none, p.2)
      | some x =>
        match vi.from_raw_value x with
        | .error e => .error (.abort e)
        | .ok ov => .ok (some ov, p.2)

/-- `Transaction::remove` (src/transaction.rs). -/
def Transaction.remove {K V : Type} (ki : KeyImpl K) (vi : ValueImpl V) (t : Sled.Tree) (k : K) :
    Except (ConflictableTransactionError Error) (Option V × Sled.Tree) :=
  match ki.to_raw_key k with
  | .error e => .error (.abort e)
  | .ok rk =>
    let p := Sled.Tree.removeKey t rk
    match p.1 with
    | none => .ok (none, p.2)
    | some x =>
      match vi.from_raw_value x with
      | .error e => .error (.abort e)
      | .ok ov => .ok (some ov, p.2)

/-- One pending operation of a `sled::Batch`. -/
inductive BatchOp where
  | insert (k v : Raw)
  | remove (k : Raw)

/-- `sled::Tree::apply_batch` / the transactional `apply_batch`: apply
the pending operations in order. -/
def Batch.apply : List BatchOp → Sled.Tree → Sled.Tree
  | [], t => t
  | .insert k v :: rest, t => Batch.apply rest (Sled.Tree.insert t k v).2
  | .remove k :: rest, t => Batch.apply rest (Sled.Tree.removeKey t k).2

/-- `Batch::set` (src/bucket.rs): encode and queue an insert. -/
def Batch.set {K V : Type} (ki : KeyImpl K) (vi : ValueImpl V)
    (b : List BatchOp) (k : K) (v : V) : Except Error (List BatchOp) :=
  match vi.to_raw_value v with
  | .error e => .error e
  | .ok rv =>
    match ki.to_raw_key k with
    | .error e => .error e
    | .ok rk => .ok (b ++ [.insert rk rv])

/-- `Transaction::batch` (src/transaction.rs): apply a batch inside the
transactional state. -/
def Transaction.batch (b : List BatchOp) (t : Sled.Tree) :
    Except (ConflictableTransactionError Error) (Unit × Sled.Tree) :=
  .ok ((), Batch.apply b t)

/-- `Bucket::transaction` (src/bucket.rs lines 259-277): run the
closure on the bucket's state; on success the candidate state commits;
on `Abort(x)` the candidate state is discarded and `Err(x)` is
returned; on `Storage(e)` the state is discarded and `Err(e.into())`
is returned.  The closure is modelled as a function from the
transactional tree state to a result and candidate state; `intoE` is
the caller's `E: From<sled::Error>` bound. -/
def Bucket.transaction {E A : Type} (intoE : SledError → E) (t : Sled.Tree)
    (f : Sled.Tree → Except (ConflictableTransactionError E) (A × Sled.Tree)) :
    Except E A × Sled.Tree :=
  match f t with
  | .ok (a, t') => (.ok a, t')
  | .error (.abort e) => (.error e, t)
  | .error (.storage e) => (.error (intoE e), t)

/-- `Bucket::transaction2` (src/bucket.rs lines 280-302): the two-map
variant; the engine (`(&self.0, &other.0).transaction(..)`) commits the
candidate states of both maps together or discards both. -/
def Bucket.transaction2 {E A : Type} (intoE : SledError → E) (t₁ t₂ : Sled.Tree)
    (f : Sled.Tree → Sled.Tree → Except (ConflictableTransactionError E) (A × Sled.Tree × Sled.Tree)) :
    Except E A × Sled.Tree × Sled.Tree :=
  match f t₁ t₂ with
  | .ok (a, t₁', t₂') => (.ok a, t₁', t₂')
  | .error (.abort e) => (.error e, t₁, t₂)
  | .error (.storage e) => (.error (intoE e), t₁, t₂)

namespace Lmdb

/-- An opaque `lmdb::Error` (the LMDB-era engine failure), with the two
codes the modelled operations distinguish. -/
inductive MdbError where
  | notFound
  | keyExist
  | other (code : Nat)
deriving DecidableEq

/-- Modelled from the spec: the LMDB-era crate `Error` enum is not
under `src/` (the `error.rs` there is the sled-era snapshot), but
`txn.rs`, `store.rs` and `config.rs` construct its `ReadOnly`,
`InvalidBucket` and `LMDB` variants, and the spec's error taxonomy (§7)
lists "read-only violation (write attempted on a read-only
store/transaction)" among the error kinds.  Only the variants those
sources use are modelled. -/
inductive Error where
  | lmdb (e : MdbError)
  | readOnly
  | invalidBucket
deriving DecidableEq

/-- `Txn` (src/txn.rs): a read-only or read-write transaction over the
LMDB environment, whose state maps a database handle to its tree. -/
inductive Txn where
  | readOnly (s : Nat → Sled.Tree)
  | readWrite (s : Nat → Sled.Tree)

/-- Update one database of an environment state. -/
def updateDb (s : Nat → Sled.Tree) (db : Nat) (t : Sled.Tree) : Nat → Sled.Tree :=
  fun d => if d = db then t else s d

/-- `Txn::set` (src/txn.rs lines 65-83): `ReadOnly` fails with
`Error::ReadOnly` before touching any state. -/
def Txn.set (txn : Txn) (db : Nat) (k v : Raw) : Except Error Txn :=
  match txn with
  | .readOnly _ => .error .readOnly
  | .readWrite s => .ok (.readWrite (updateDb s db (Sled.Tree.insert (s db) k v).2))

/-- `Txn::set_no_overwrite` (src/txn.rs lines 86-104): like `set` with
`WriteFlags::NO_OVERWRITE`, so an existing key is an engine
`KeyExist` error. -/
def Txn.set_no_overwrite (txn : Txn) (db : Nat) (k v : Raw) : Except Error Txn :=
  match txn with
  | .readOnly _ => .error .readOnly
  | .readWrite s =>
    match s db k with
    | some _ => .error (.lmdb .keyExist)
    | none => .ok (.readWrite (updateDb s db (Sled.Tree.insert (s db) k v).2))

/-- `Txn::del` (src/txn.rs lines 107-119): `ReadOnly` fails with
`Error::ReadOnly`; deleting an absent key is an engine `NotFound`
error. -/
def Txn.del (txn : Txn) (db : Nat) (k : Raw) : Except Error Txn :=
  match txn with
  | .readOnly _ => .error .readOnly
  | .readWrite s =>
    match s db k with
    | none => .error (.lmdb .notFound)
    | some _ => .ok (.readWrite (updateDb s db (Sled.Tree.removeKey (s db) k).2))

/-- `Txn::clear_db` (src/txn.rs lines 122-133). -/
def Txn.clear_db (txn : Txn) (db : Nat) : Except Error Txn :=
  match txn with
  | .readOnly _ => .error .readOnly
  | .readWrite s => .ok (.readWrite (updateDb s db Sled.Tree.empty))

/-- `Txn::reserve` (src/txn.rs lines 136-151): returns a writable
zeroed buffer of the requested length stored under the key. -/
def Txn.reserve (txn : Txn) (db : Nat) (k : Raw) (len : Nat) :
    Except Error (List Nat × Txn) :=
  match txn with
  | .readOnly _ => .error .readOnly
  | .readWrite s =>
    .ok (List.replicate len 0,
         .readWrite (updateDb s db (Sled.Tree.insert (s db) k (List.replicate len 0)).2))

/-- `Txn::write_cursor` (src/txn.rs lines 183-191): the cursor itself
is irrelevant to the read-only gating and is modelled as `Unit`. -/
def Txn.write_cursor (txn : Txn) (_db : Nat) : Except Error Unit :=
  match txn with
  | .readOnly _ => .error .readOnly
  | .readWrite _ => .ok ()

/-- Bucket flags of the LMDB-era `config.rs`. -/
inductive Flag where
  | flagDefault
  | reverseKey
  | integerKey
deriving DecidableEq

/-- The LMDB-era `Config` (src/config.rs): paths are modelled as
component lists. -/
structure Config where
  map_size : Nat
  max_readers : Nat
  flags : Nat
  path : List String
  readonly : Bool
  buckets : List (String × Flag)

/-- The LMDB-era `Store` (src/store.rs): the environment plus the
configuration it was created from. -/
structure Store where
  env : Nat → Sled.Tree
  cfg : Config

/-- `Store::read_txn` (src/store.rs lines 92-96). -/
def Store.read_txn (st : Store) : Except Error Txn :=
  .ok (.readOnly st.env)

/-- `Store::write_txn` (src/store.rs lines 99-107): a store whose
configuration is read-only fails with `Error::ReadOnly` before
`begin_rw_txn` is ever reached. -/
def Store.write_txn (st : Store) : Except Error Txn :=
  if st.cfg.readonly then .error .readOnly
  else .ok (.readWrite st.env)

/-- A handle returned by a successful `lmdb::Environment` open. -/
structure EnvHandle where
  id : Nat
deriving DecidableEq

/-- A tiny filesystem model for `Config::env`: the set of existing
directories and of files (with an opaque content token), both named by
absolute path components. -/
structure Fs where
  dirs : List (List String)
  files : List (List String × Nat)

/-- `fs::create_dir_all(&self.path)`: ensures the directory exists (its
result is ignored by `Config::env`). -/
def createDirAll (p : List String) (fs : Fs) : Fs :=
  { fs with dirs := p :: fs.dirs }

/-- `fs::remove_dir_all(&self.path)`: recursively removes the directory
and everything under it. -/
def removeDirAll (p : List String) (fs : Fs) : Fs :=
  { dirs := fs.dirs.filter fun d => !(p.isPrefixOf d),
    files := fs.files.filter fun f => !(p.isPrefixOf f.1) }

/-- `Config::env` (src/config.rs lines 141-165): create the directory,
try to open the environment (the open outcome — a call into the
external `lmdb` crate — is supplied as `openResult`), and on failure
recursively delete the directory before returning `Error::LMDB(e)`. -/
def Config.env (cfg : Config) (openResult : Except MdbError EnvHandle) (fs : Fs) :
    Except Error EnvHandle × Fs :=
  let fs1 := createDirAll cfg.path fs
  match openResult with
  | .ok db => (.ok db, fs1)
  | .error e => (.error (.lmdb e), removeDirAll cfg.path fs1)

end Lmdb

theorem lexLt_cons_same (a : Nat) (as bs : List Nat) :
    lexLt (a :: as) (a :: bs) = lexLt as bs := by
  simp [lexLt]

/-- Big-endian byte strings compare lexicographically the way the
underlying numbers compare. -/
theorem beBytes_lt_mono : ∀ (w a b : Nat), a < b → b < 256 ^ w →
    lexLt (beBytes w a) (beBytes w b) = true := by
  intro w
  induction w with
  | zero =>
    intro a b hab hb
    simp only [pow_zero, Nat.lt_one_iff] at hb
    omega
  | succ w ih =>
    intro a b hab hb
    have hpow : 0 < 256 ^ w := Nat.pos_pow_of_pos w (by norm_num)
    have hdivle : a / 256 ^ w ≤ b / 256 ^ w := Nat.div_le_div_right (Nat.le_of_lt hab)
    rcases Nat.lt_or_ge (a / 256 ^ w) (b / 256 ^ w) with hlt | hge
    · simp [beBytes, lexLt, hlt]
    · have heq : a / 256 ^ w = b / 256 ^ w := le_antisymm hdivle hge
      have hda := Nat.div_add_mod a (256 ^ w)
      have hdb := Nat.div_add_mod b (256 ^ w)
      rw [heq] at hda
      have hmodlt : a % 256 ^ w < b % 256 ^ w := by omega
      have hblt : b % 256 ^ w < 256 ^ w := Nat.mod_lt _ hpow
      have htail := ih (a % 256 ^ w) (b % 256 ^ w) hmodlt hblt
      simp only [beBytes, heq, lexLt_cons_same]
      exact htail

/-- A value below `256 ^ j` has all-zero bytes above the low `j`
positions in its `j + k`-byte big-endian image. -/
theorem beBytes_high_zero : ∀ (k j i : Nat), i < 256 ^ j →
    beBytes (j + k) i = List.replicate k 0 ++ beBytes j i := by
  intro k
  induction k with
  | zero => intro j i _; simp
  | succ k ih =>
    intro j i h
    have h1 : i < 256 ^ (j + k) :=
      lt_of_lt_of_le h (Nat.pow_le_pow_right (by norm_num) (Nat.le_add_right j k))
    have hdiv : i / 256 ^ (j + k) = 0 := Nat.div_eq_of_lt h1
    have hmod : i % 256 ^ (j + k) = i := Nat.mod_eq_of_lt h1
    have hstep : j + (k + 1) = (j + k) + 1 := rfl
    rw [hstep]
    simp only [beBytes, hdiv, hmod, ih j i h]
    simp [List.replicate_succ]

/-- A value in the top `256 ^ j`-sized band below `256 ^ (j + k)` has
all-`0xFF` bytes above the low `j` positions in its big-endian image. -/
theorem beBytes_high_ff : ∀ (k j n : Nat),
    256 ^ (j + k) - 256 ^ j ≤ n → n < 256 ^ (j + k) →
    beBytes (j + k) n = List.replicate k 255 ++ beBytes j (n % 256 ^ j) := by
  intro k
  induction k with
  | zero =>
    intro j n _ h2
    have h2' : n < 256 ^ j := by simpa using h2
    simp [Nat.mod_eq_of_lt h2']
  | succ k ih =>
    intro j n h1 h2
    have hQ : 0 < 256 ^ (j + k) := Nat.pos_pow_of_pos _ (by norm_num)
    have hsucc : 256 ^ (j + (k + 1)) = 256 ^ (j + k) * 256 := by
      rw [show j + (k + 1) = (j + k) + 1 from rfl, pow_succ]
    have hple : 256 ^ j ≤ 256 ^ (j + k) :=
      Nat.pow_le_pow_right (by norm_num) (Nat.le_add_right _ _)
    rw [hsucc] at h1 h2
    have hd255 : n / 256 ^ (j + k) = 255 := by
      have hub : n / 256 ^ (j + k) < 256 := Nat.div_lt_of_lt_mul h2
      have hlb : 255 ≤ n / 256 ^ (j + k) := by
        rw [Nat.le_div_iff_mul_le hQ]
        omega
      omega
    have hdm := Nat.div_add_mod n (256 ^ (j + k))
    rw [hd255] at hdm
    have hb1 : 256 ^ (j + k) - 256 ^ j ≤ n % 256 ^ (j + k) := by omega
    have hb2 : n % 256 ^ (j + k) < 256 ^ (j + k) := Nat.mod_lt _ hQ
    have hmm : n % 256 ^ (j + k) % 256 ^ j = n % 256 ^ j :=
      Nat.mod_mod_of_dvd n (pow_dvd_pow 256 (Nat.le_add_right j k))
    have hstep : j + (k + 1) = (j + k) + 1 := rfl
    rw [hstep]
    simp only [beBytes, hd255, ih j _ hb1 hb2, hmm]
    simp [List.replicate_succ]

/-- C2 counterexample: in `src/types.rs` (the 64-bit `Integer`
variant), `From<u64>` on a little-endian target stores the
*little-endian* byte image (`i.to_le()` transmuted), so for
`a = 1 < b = 256` the encoding of `b` is lexicographically *smaller*
than the encoding of `a`, refuting the claimed ordering law for the
64-bit variant. -/
theorem integer64_from_u64_not_monotone :
    IntegerTypesRs.from_u64 1 = [1, 0, 0, 0, 0, 0, 0, 0] ∧
    IntegerTypesRs.from_u64 256 = [0, 1, 0, 0, 0, 0, 0, 0] ∧
    lexLt (IntegerTypesRs.from_u64 1) (IntegerTypesRs.from_u64 256) = false := by
  decide

/-- C2 (amended): the 128-bit `Integer` variant of `src/key.rs` stores
big-endian bytes, and for unsigned `a < b` the encoding of `a` is
lexicographically below the encoding of `b`.  (The 64-bit variant of
`src/types.rs` stores native-endian bytes and violates this on
little-endian targets, see the counterexample.) -/
theorem integer128_from_u128_lexicographically_monotone :
    ∀ a b : Nat, a < b → b < 2 ^ 128 →
    lexLt (Integer.from_u128 a).bytes (Integer.from_u128 b).bytes = true := by
  intro a b hab hb
  have h256 : (2 : Nat) ^ 128 = 256 ^ 16 := by norm_num
  have ha' : a % 2 ^ 128 = a := Nat.mod_eq_of_lt (lt_trans hab hb)
  have hb' : b % 2 ^ 128 = b := Nat.mod_eq_of_lt hb
  simp only [Integer.from_u128, Integer.bytes, ha', hb']
  exact beBytes_lt_mono 16 a b hab (h256 ▸ hb)

/-- Witness for the amended C2 theorem at `a = 1`, `b = 256`: the
big-endian 128-bit encoding satisfies the spec's own regression
example. -/
theorem integer128_monotone_witness :
    lexLt (Integer.from_u128 1).bytes (Integer.from_u128 256).bytes = true :=
  integer128_from_u128_lexicographically_monotone 1 256 (by norm_num) (by norm_num)

set_option maxRecDepth 8000 in
/-- C4 counterexample: `impl From<i32> for Integer` performs `i as
u128`, which *sign-extends* negative values.  At `i = -1` the encoding
is sixteen `0xFF` bytes, not the zero-extension of the 32-bit pattern
`0x00000000FFFFFFFF` the claim requires. -/
theorem integer_from_i32_minus_one_sign_extended :
    (Integer.from_i32 (-1)).bytes = List.replicate 16 255 ∧
    (Integer.from_i32 (-1)).bytes ≠ (Integer.from_u128 4294967295).bytes := by
  decide

/-- C4 (amended): conversions from the unsigned types widen by zero
extension — the bytes above the source width are zero — while `i32`
widens through Rust's `as` cast, which sign-extends: every negative
`i32` produces twelve leading `0xFF` bytes. -/
theorem integer_widening_zero_or_sign_extension :
    (∀ i : Nat, i < 2 ^ 32 →
      (Integer.from_u32 i).bytes.take 12 = List.replicate 12 0) ∧
    (∀ i : Nat, i < 2 ^ 64 →
      (Integer.from_u64 i).bytes.take 8 = List.replicate 8 0) ∧
    (∀ i : Int, -(2 ^ 31) ≤ i → i < 0 →
      (Integer.from_i32 i).bytes.take 12 = List.replicate 12 255) := by
  refine ⟨?_, ?_, ?_⟩
  · intro i h
    have h32 : (2 : Nat) ^ 32 = 256 ^ 4 := by norm_num
    have h1 : i % 2 ^ 32 = i := Nat.mod_eq_of_lt h
    have h2 : i % 2 ^ 128 = i := Nat.mod_eq_of_lt (lt_trans h (by norm_num))
    have hz := beBytes_high_zero 12 4 i (h32 ▸ h)
    simp only [Integer.from_u32, Integer.from_u128, Integer.bytes, h1, h2]
    rw [show (16 : Nat) = 4 + 12 from rfl, hz]
    exact List.take_left' (List.length_replicate 12 0)
  · intro i h
    have h64 : (2 : Nat) ^ 64 = 256 ^ 8 := by norm_num
    have h1 : i % 2 ^ 64 = i := Nat.mod_eq_of_lt h
    have h2 : i % 2 ^ 128 = i := Nat.mod_eq_of_lt (lt_trans h (by norm_num))
    have hz := beBytes_high_zero 8 8 i (h64 ▸ h)
    simp only [Integer.from_u64, Integer.from_u128, Integer.bytes, h1, h2]
    rw [show (16 : Nat) = 8 + 8 from rfl, hz]
    exact List.take_left' (List.length_replicate 8 0)
  · intro i hlb hub
    have p128 : (2 : Int) ^ 128 = 340282366920938463463374607431768211456 := by norm_num
    have p31 : (2 : Int) ^ 31 = 2147483648 := by norm_num
    rw [p31] at hlb
    set n : Nat := (i % (2 ^ 128 : Int)).toNat with hn
    have hnb : 340282366920938463463374607431768211456 - 2147483648 ≤ n ∧
        n < 340282366920938463463374607431768211456 := by
      rw [hn, p128]
      omega
    have hq128 : (2 : Nat) ^ 128 = 340282366920938463463374607431768211456 := by norm_num
    have h2 : n % 2 ^ 128 = n := Nat.mod_eq_of_lt (by rw [hq128]; exact hnb.2)
    have hband1 : 256 ^ (4 + 12) - 256 ^ 4 ≤ n := by
      have : (256 : Nat) ^ (4 + 12) = 340282366920938463463374607431768211456 := by norm_num
      have h4 : (256 : Nat) ^ 4 = 4294967296 := by norm_num
      omega
    have hband2 : n < 256 ^ (4 + 12) := by
      have : (256 : Nat) ^ (4 + 12) = 340282366920938463463374607431768211456 := by norm_num
      omega
    have hff := beBytes_high_ff 12 4 n hband1 hband2
    simp only [Integer.from_i32, Integer.from_u128, Integer.bytes, h2]
    rw [show (16 : Nat) = 4 + 12 from rfl, hff]
    exact List.take_left' (List.length_replicate 12 255)

/-- Witness for the amended C4 theorem at `i = 7 : u32` and
`i = -2 : i32`. -/
theorem integer_widening_witness :
    (Integer.from_u32 7).bytes.take 12 = List.replicate 12 0 ∧
    (Integer.from_i32 (-2)).bytes.take 12 = List.replicate 12 255 :=
  ⟨integer_widening_zero_or_sign_extension.1 7 (by norm_num),
   integer_widening_zero_or_sign_extension.2.2 (-2) (by norm_num) (by norm_num)⟩

/-- C3: for every supported key type — `Raw`, `Vec<u8>`, `&[u8]`,
`String`, `&str`, `Integer` — decoding the encoding returns the
original key: `from_raw_key(to_raw_key(x)) == x`. -/
theorem key_round_trip :
    (∀ r : Raw, (Raw.to_raw_key r).bind Raw.from_raw_key = .ok r) ∧
    (∀ r : Raw, (VecKey.to_raw_key r).bind VecKey.from_raw_key = .ok r) ∧
    (∀ r : Raw, (SliceKey.to_raw_key r).bind SliceKey.from_raw_key = .ok r) ∧
    (∀ s : RustString, (RustString.to_raw_key s).bind RustString.from_raw_key = .ok s) ∧
    (∀ s : RustString, (StrKey.to_raw_key s).bind StrKey.from_raw_key = .ok s) ∧
    (∀ i : Integer, Integer.to_raw_key i = .ok i.bytes ∧
      Integer.from_raw_key i.bytes = some (.ok i)) := by
  refine ⟨fun r => rfl, fun r => rfl, fun r => rfl, ?_, ?_, ?_⟩
  · intro s
    simp [RustString.to_raw_key, RustString.from_raw_key, Except.bind, s.property]
  · intro s
    simp [StrKey.to_raw_key, StrKey.from_raw_key, Except.bind, s.property]
  · intro i
    refine ⟨rfl, ?_⟩
    have h16 : i.bytes.length = 16 := i.property
    have htake : i.bytes.take 16 = i.bytes := by
      rw [← h16]
      exact List.take_length i.bytes
    have hslice : Integer.from_slice i.bytes = some i := by
      unfold Integer.from_slice
      rw [dif_pos (le_of_eq h16.symm)]
      exact congrArg some (Subtype.ext htake)
    simp [Integer.from_raw_key, hslice]

/-- C5 counterexample: `Integer::from_raw_key` calls
`Integer::from(&[u8])`, whose `&buf[..16]` slice panics with an
index-out-of-range when the raw key is shorter than 16 bytes (here: the
empty byte string), so it is not total for all input lengths and does
not return a `Result` on short input; the panic is modelled as
`none`. -/
theorem integer_from_raw_key_short_input_panics :
    Integer.from_raw_key [] = none := rfl

/-- C5 (amended): `from_raw_key` is total and never errs for `Raw`,
`Vec<u8>` and `&[u8]`; for `String` (and `&str`) it returns the UTF-8
error exactly when the bytes are not valid UTF-8; `Integer::from_raw_key`
is total for inputs of length at least 16 but panics (modelled as
`none`) for shorter inputs. -/
theorem from_raw_key_total_except_short_integer :
    ∀ r : Raw,
      Raw.from_raw_key r = .ok r ∧
      VecKey.from_raw_key r = .ok r ∧
      SliceKey.from_raw_key r = .ok r ∧
      ((∃ s : RustString, RustString.from_raw_key r = .ok s) ↔ validUtf8 r = true) ∧
      (validUtf8 r = false → RustString.from_raw_key r = .error .utf8) ∧
      (16 ≤ r.length → ∃ i : Integer, Integer.from_raw_key r = some (.ok i)) ∧
      (r.length < 16 → Integer.from_raw_key r = none) := by
  intro r
  refine ⟨rfl, rfl, rfl, ⟨?_, ?_⟩, ?_, ?_, ?_⟩
  · rintro ⟨s, hs⟩
    unfold RustString.from_raw_key at hs
    by_cases h : validUtf8 r = true
    · exact h
    · rw [dif_neg h] at hs
      exact absurd hs (by simp)
  · intro h
    exact ⟨⟨r, h⟩, by unfold RustString.from_raw_key; rw [dif_pos h]⟩
  · intro h
    unfold RustString.from_raw_key
    rw [dif_neg (by simp [h])]
  · intro h
    refine ⟨⟨r.take 16, by simp [List.length_take]; omega⟩, ?_⟩
    unfold Integer.from_raw_key Integer.from_slice
    rw [dif_pos h]
    rfl
  · intro h
    unfold Integer.from_raw_key Integer.from_slice
    rw [dif_neg (by omega)]
    rfl

/-- Witness for the amended C5 theorem: a 16-byte raw key decodes to
some `Integer`, a 1-byte raw key hits the modelled panic, and a lone
`0xFF` byte is rejected as a string key with the UTF-8 error. -/
theorem from_raw_key_totality_witness :
    (∃ i : Integer, Integer.from_raw_key (List.replicate 16 0) = some (.ok i)) ∧
    Integer.from_raw_key [0] = none ∧
    RustString.from_raw_key [255] = .error .utf8 :=
  ⟨(from_raw_key_total_except_short_integer (List.replicate 16 0)).2.2.2.2.2.1 (by decide),
   (from_raw_key_total_except_short_integer [0]).2.2.2.2.2.2 (by decide),
   (from_raw_key_total_except_short_integer [255]).2.2.2.2.1 (by decide)⟩

/-- C1: a transaction closure that returns an application-level abort
error makes `Bucket::transaction` (resp. `transaction2`) return exactly
that error value, and every participating bucket keeps its original
state — no write performed inside the closure is visible after the call
returns. -/
theorem transaction_abort_propagates_and_discards :
    (∀ (E A : Type) (intoE : SledError → E) (t : Sled.Tree)
       (f : Sled.Tree → Except (ConflictableTransactionError E) (A × Sled.Tree)) (e : E),
       f t = .error (.abort e) →
       Bucket.transaction intoE t f = (.error e, t)) ∧
    (∀ (E A : Type) (intoE : SledError → E) (t₁ t₂ : Sled.Tree)
       (f : Sled.Tree → Sled.Tree →
         Except (ConflictableTransactionError E) (A × Sled.Tree × Sled.Tree)) (e : E),
       f t₁ t₂ = .error (.abort e) →
       Bucket.transaction2 intoE t₁ t₂ f = (.error e, t₁, t₂)) := by
  constructor
  · intro E A intoE t f e h
    simp [Bucket.transaction, h]
  · intro E A intoE t₁ t₂ f e h
    simp [Bucket.transaction2, h]

/-- Witness for C1: closures that perform `Transaction::set` writes and
then abort with `Error::poison`; the calls return exactly that error
and both participating buckets are still empty. -/
theorem transaction_abort_witness :
    Bucket.transaction Error.sled Sled.Tree.empty
      (fun t =>
        match Transaction.set rawKeyImpl rawValueImpl t [1] [2] with
        | .ok (_, t') =>
          (match Transaction.remove rawKeyImpl rawValueImpl t' [1] with
           | .ok _ => .error (.abort Error.poison)
           | .error e => .error e :
             Except (ConflictableTransactionError Error) (Unit × Sled.Tree))
        | .error e => .error e) = (.error Error.poison, Sled.Tree.empty) ∧
    Bucket.transaction2 Error.sled Sled.Tree.empty Sled.Tree.empty
      (fun t₁ t₂ =>
        match Transaction.set rawKeyImpl rawValueImpl t₁ [1] [2] with
        | .ok (_, t₁') =>
          match Transaction.set rawKeyImpl rawValueImpl t₂ [3] [4] with
          | .ok (_, _) =>
            (match Transaction.get rawKeyImpl rawValueImpl t₁' [1] with
             | .ok _ => .error (.abort Error.poison)
             | .error e => .error e :
               Except (ConflictableTransactionError Error)
                 (Unit × Sled.Tree × Sled.Tree))
          | .error e => .error e
        | .error e => .error e) =
      (.error Error.poison, Sled.Tree.empty, Sled.Tree.empty) :=
  ⟨transaction_abort_propagates_and_discards.1 Error Unit Error.sled
     Sled.Tree.empty _ Error.poison rfl,
   transaction_abort_propagates_and_discards.2 Error Unit Error.sled
     Sled.Tree.empty Sled.Tree.empty _ Error.poison rfl⟩

/-- C6: when the stored value does not match the expected old value,
`Bucket::compare_and_swap` fails with the dedicated compare-and-swap
error carrying the observed and proposed values — an error that is a
CAS conflict and not a storage failure, so callers can tell the two
apart by inspecting the returned `Error`. -/
theorem compare_and_swap_conflict_distinguishable :
    ∀ (K V : Type) (ki : KeyImpl K) (vi : ValueImpl V) (t : Sled.Tree) (k : K)
      (old new : Option V) (rk : Raw) (oldr newr : Option Raw),
      encode_option vi old = .ok oldr →
      encode_option vi new = .ok newr →
      ki.to_raw_key k = .ok rk →
      t rk ≠ oldr →
      Bucket.compare_and_swap ki vi t k old new =
        .error (Error.compareAndSwap (t rk) newr) ∧
      (Error.compareAndSwap (t rk) newr).isStorageFailure = false ∧
      (Error.compareAndSwap (t rk) newr).isCasConflict = true := by
  intro K V ki vi t k old new rk oldr newr h1 h2 h3 h4
  refine ⟨?_, rfl, rfl⟩
  simp [Bucket.compare_and_swap, h1, h2, h3, Sled.Tree.compare_and_swap,
    if_neg h4, sled_cas_error_into_error]

/-- Witness for C6 on a concrete raw bucket: expecting `some [9]` on an
empty tree conflicts, and the returned error is a CAS conflict, not a
storage failure. -/
theorem compare_and_swap_conflict_witness :
    Bucket.compare_and_swap rawKeyImpl rawValueImpl Sled.Tree.empty
        ([5] : Raw) (some [9]) none =
      .error (Error.compareAndSwap (Sled.Tree.empty [5]) none) ∧
    (Error.compareAndSwap (Sled.Tree.empty [5]) none).isStorageFailure = false ∧
    (Error.compareAndSwap (Sled.Tree.empty [5]) none).isCasConflict = true :=
  compare_and_swap_conflict_distinguishable Raw Raw rawKeyImpl rawValueImpl
    Sled.Tree.empty [5] (some [9]) none [5] (some [9]) none rfl rfl rfl
    (by simp [Sled.Tree.empty])

/-- C7: `Bucket::get` returns `Ok(None)` exactly when the (encoded) key
is absent from the bucket — absence is never an error — and returns
`Err` only when the key fails to encode or the stored bytes fail to
decode as the value type. -/
theorem get_absent_is_ok_none_never_error :
    ∀ (K V : Type) (ki : KeyImpl K) (vi : ValueImpl V) (t : Sled.Tree) (k : K),
      (Bucket.get ki vi t k = .ok (none : Option V) ↔
        ∃ rk, ki.to_raw_key k = .ok rk ∧ t rk = none) ∧
      (∀ e, Bucket.get ki vi t k = .error e →
        ki.to_raw_key k = .error e ∨
        ∃ rk x, ki.to_raw_key k = .ok rk ∧ t rk = some x ∧
          vi.from_raw_value x = .error e) := by
  intro K V ki vi t k
  cases hk : ki.to_raw_key k with
  | error e =>
    refine ⟨⟨?_, ?_⟩, ?_⟩
    · intro h
      simp [Bucket.get, hk] at h
    · rintro ⟨rk, hrk, -⟩
      exact absurd hrk (by simp)
    · intro e' h
      simp only [Bucket.get, hk] at h
      cases h
      exact Or.inl rfl
  | ok rk =>
    cases ht : t rk with
    | none =>
      refine ⟨⟨?_, ?_⟩, ?_⟩
      · intro _
        exact ⟨rk, rfl, ht⟩
      · intro _
        simp [Bucket.get, hk, ht]
      · intro e h
        simp [Bucket.get, hk, ht] at h
    | some x =>
      cases hv : vi.from_raw_value x with
      | error e =>
        refine ⟨⟨?_, ?_⟩, ?_⟩
        · intro h
          simp [Bucket.get, hk, ht, hv] at h
        · rintro ⟨rk', hrk', habs⟩
          cases hrk'
          rw [ht] at habs
          exact absurd habs (by simp)
        · intro e' h
          simp only [Bucket.get, hk, ht, hv] at h
          cases h
          exact Or.inr ⟨rk, x, rfl, ht, hv⟩
      | ok v =>
        refine ⟨⟨?_, ?_⟩, ?_⟩
        · intro h
          simp [Bucket.get, hk, ht, hv] at h
        · rintro ⟨rk', hrk', habs⟩
          cases hrk'
          rw [ht] at habs
          exact absurd habs (by simp)
        · intro e h
          simp [Bucket.get, hk, ht, hv] at h

/-- Witness for C7: on the empty raw bucket, `get` of a key returns
`Ok(None)`. -/
theorem get_absent_witness :
    Bucket.get rawKeyImpl rawValueImpl Sled.Tree.empty ([] : Raw) =
      .ok (none : Option Raw) :=
  (get_absent_is_ok_none_never_error Raw Raw rawKeyImpl rawValueImpl
    Sled.Tree.empty []).1.mpr ⟨[], rfl, rfl⟩

/-- C8: `Bucket::remove` on an absent key returns `Ok(None)` and leaves
the bucket unchanged, and removing the same key twice yields the same
resulting bucket state as removing it once (a second remove returns
`Ok(None)` and keeps the state of the first). -/
theorem remove_absent_noop_and_idempotent :
    ∀ (K V : Type) (ki : KeyImpl K) (vi : ValueImpl V) (t : Sled.Tree) (k : K) (rk : Raw),
      ki.to_raw_key k = .ok rk →
      ((t rk = none → Bucket.remove ki vi t k = .ok ((none : Option V), t)) ∧
       (∀ v t', Bucket.remove ki vi t k = .ok (v, t') →
         Bucket.remove ki vi t' k = .ok (none, t'))) := by
  intro K V ki vi t k rk hk
  have habsent : ∀ (s : Sled.Tree), s rk = none →
      Bucket.remove ki vi s k = .ok ((none : Option V), s) := by
    intro s hs
    have hfun : (fun q => if q = rk then none else s q) = s := by
      funext q
      by_cases hq : q = rk
      · subst hq
        simp [hs]
      · simp [hq]
    simp [Bucket.remove, hk, Sled.Tree.removeKey, hs, hfun]
  refine ⟨habsent t, ?_⟩
  intro v t' h
  have ht' : t' = fun q => if q = rk then none else t q := by
    cases ht : t rk with
    | none =>
      simp only [Bucket.remove, hk, Sled.Tree.removeKey, ht, Except.ok.injEq,
        Prod.mk.injEq] at h
      exact h.2.symm
    | some x =>
      cases hv : vi.from_raw_value x with
      | error e =>
        simp [Bucket.remove, hk, Sled.Tree.removeKey, ht, hv] at h
      | ok ov =>
        simp only [Bucket.remove, hk, Sled.Tree.removeKey, ht, hv, Except.ok.injEq,
          Prod.mk.injEq] at h
        exact h.2.symm
  have ht'rk : t' rk = none := by
    rw [ht']
    simp
  exact habsent t' ht'rk

/-- Witness for C8: removing a key from the empty raw bucket returns
`Ok(None)` with the bucket unchanged. -/
theorem remove_absent_witness :
    Bucket.remove rawKeyImpl rawValueImpl Sled.Tree.empty ([7] : Raw) =
      .ok ((none : Option Raw), Sled.Tree.empty) :=
  (remove_absent_noop_and_idempotent Raw Raw rawKeyImpl rawValueImpl
    Sled.Tree.empty [7] [7] rfl).1 rfl

/-- C9: every write operation through a read-only handle fails with
`Error::ReadOnly` (no state is produced, so the database is unchanged):
`Txn::set`, `set_no_overwrite`, `del`, `clear_db`, `reserve` and
`write_cursor` on a read-only transaction, and `Store::write_txn` on a
store whose configuration has `readonly = true`, which errs before any
write transaction is opened. -/
theorem read_only_writes_rejected :
    (∀ (s : Nat → Sled.Tree) (db : Nat) (k v : Raw) (len : Nat),
      Lmdb.Txn.set (.readOnly s) db k v = .error .readOnly ∧
      Lmdb.Txn.set_no_overwrite (.readOnly s) db k v = .error .readOnly ∧
      Lmdb.Txn.del (.readOnly s) db k = .error .readOnly ∧
      Lmdb.Txn.clear_db (.readOnly s) db = .error .readOnly ∧
      Lmdb.Txn.reserve (.readOnly s) db k len = .error .readOnly ∧
      Lmdb.Txn.write_cursor (.readOnly s) db = .error .readOnly) ∧
    (∀ st : Lmdb.Store, st.cfg.readonly = true →
      Lmdb.Store.write_txn st = .error .readOnly) := by
  constructor
  · intro s db k v len
    exact ⟨rfl, rfl, rfl, rfl, rfl, rfl⟩
  · intro st h
    simp [Lmdb.Store.write_txn, h]

/-- Witness for C9: a concrete store configured read-only refuses a
write transaction. -/
theorem read_only_witness :
    Lmdb.Store.write_txn
      ⟨fun _ => Sled.Tree.empty, ⟨1073741824, 5, 0, ["tmp", "db"], true, []⟩⟩ =
      .error .readOnly :=
  read_only_writes_rejected.2 _ rfl

theorem filter_not_filter {α : Type} (l : List α) (p : α → Bool) :
    (l.filter fun a => !p a).filter p = [] := by
  induction l with
  | nil => rfl
  | cons a l ih =>
    cases h : p a <;> simp [List.filter_cons, h, ih]

/-- C10: when the environment open fails, `Config::env` recursively
deletes the configured directory — afterwards no file or directory
under `cfg.path` remains — and returns `Error::LMDB(e)`; on success the
directory exists (it is created beforehand with `create_dir_all`). -/
theorem config_env_deletes_dir_on_failure :
    (∀ (cfg : Lmdb.Config) (e : Lmdb.MdbError) (fs : Lmdb.Fs),
      (Lmdb.Config.env cfg (.error e) fs).1 = .error (.lmdb e) ∧
      ((Lmdb.Config.env cfg (.error e) fs).2.files.filter
        fun f => cfg.path.isPrefixOf f.1) = [] ∧
      ((Lmdb.Config.env cfg (.error e) fs).2.dirs.filter
        fun d => cfg.path.isPrefixOf d) = []) ∧
    (∀ (cfg : Lmdb.Config) (db : Lmdb.EnvHandle) (fs : Lmdb.Fs),
      (Lmdb.Config.env cfg (.ok db) fs).1 = .ok db ∧
      cfg.path ∈ (Lmdb.Config.env cfg (.ok db) fs).2.dirs) := by
  constructor
  · intro cfg e fs
    refine ⟨rfl, ?_, ?_⟩
    · simp only [Lmdb.Config.env, Lmdb.removeDirAll, Lmdb.createDirAll]
      exact filter_not_filter _ _
    · simp only [Lmdb.Config.env, Lmdb.removeDirAll, Lmdb.createDirAll]
      exact filter_not_filter _ _
  · intro cfg db fs
    exact ⟨rfl, by simp [Lmdb.Config.env, Lmdb.createDirAll]⟩
